import Mathlib

/-!
Shallow embedding of the Seoye calligraphy engine
(src/services/geminiService.ts `CalligraphyCanvas` and
src/unnamed/part_000 `brushPhysics`), with theorems settling the
frozen claims about brush physics, the stroke engine, the bounded
undo history, the text-particle animation and the vector log.
-/

namespace Seoye

/-- FontStyle from types.ts: 'HAND' | 'PEN' | 'BRUSH'. -/
inductive FontStyle
  | HAND
  | PEN
  | BRUSH
deriving DecidableEq

/-- WeightOption from types.ts: 'THIN' | 'NORMAL' | 'BOLD'. -/
inductive WeightOption
  | THIN
  | NORMAL
  | BOLD
deriving DecidableEq

/-- AppMode from types.ts. -/
inductive AppMode
  | DRAW
  | GENERATE
deriving DecidableEq

/-! ## History manager (saveHistory / performUndo / performRedo)

The drawing layer's raster snapshot (`ImageData`) and the vector-log
entries are opaque to the history logic, so the model is generic in the
raster type `α` and the log-entry type `β`. -/

/-- HistoryStep from CalligraphyCanvas: `{ imageData, svgPaths }`. -/
structure HistoryStep (α β : Type) where
  imageData : α
  svgPaths : List β
deriving DecidableEq

/-- The mutable state touched by the history code: `historyRef`,
`historyStepIndexRef`, the drawing canvas pixels and `drawingSvgRef`. -/
structure CanvasState (α β : Type) where
  history : List (HistoryStep α β)
  index : ℕ
  canvas : α
  svg : List β
deriving DecidableEq

/-- MAX_HISTORY constant (geminiService.ts line 121). -/
def MAX_HISTORY : ℕ := 20

variable {α β : Type}

/-- saveHistory (geminiService.ts lines 183-204): discard redo steps past
the current index, push a snapshot of the drawing layer, then either evict
the oldest step (when over capacity) or advance the index. -/
def saveHistory (s : CanvasState α β) : CanvasState α β :=
  let h0 := if (s.index : ℤ) < (s.history.length : ℤ) - 1 then
              s.history.take (s.index + 1)
            else s.history
  let h1 := h0 ++ [{ imageData := s.canvas, svgPaths := s.svg }]
  if MAX_HISTORY < h1.length then
    { s with history := h1.drop 1 }
  else
    { s with history := h1, index := s.index + 1 }

/-- performUndo (geminiService.ts lines 206-219): if the index is
positive, decrement it and restore that step's raster and vector log.
The source decrements the index before looking the step up and restores
only when the step exists. -/
def performUndo (s : CanvasState α β) : CanvasState α β :=
  if 0 < s.index then
    let i := s.index - 1
    match s.history[i]? with
    | some step => { s with index := i, canvas := step.imageData, svg := step.svgPaths }
    | none => { s with index := i }
  else s

/-- performRedo (geminiService.ts lines 221-234). -/
def performRedo (s : CanvasState α β) : CanvasState α β :=
  if s.index + 1 < s.history.length then
    let i := s.index + 1
    match s.history[i]? with
    | some step => { s with index := i, canvas := step.imageData, svg := step.svgPaths }
    | none => { s with index := i }
  else s

/-- Initial history setup (geminiService.ts lines 420-430): a single
blank step at index 0, the drawing layer blank and the vector log empty. -/
def initialState (blank : α) : CanvasState α β :=
  { history := [{ imageData := blank, svgPaths := [] }]
    index := 0
    canvas := blank
    svg := [] }

/-- One stroke-completion cycle: the stroke leaves the drawing layer with
raster `m.1` and vector log `m.2`, then pointer-up calls saveHistory. -/
def mutateThenSave (m : α × List β) (s : CanvasState α β) : CanvasState α β :=
  saveHistory { s with canvas := m.1, svg := m.2 }

/-- A sequence of stroke-completion cycles. -/
def runSaves (ms : List (α × List β)) (s : CanvasState α β) : CanvasState α β :=
  ms.foldl (fun t m => mutateThenSave m t) s

/-- n successive performUndo calls. -/
def performUndoN : ℕ → CanvasState α β → CanvasState α β
  | 0, s => s
  | n + 1, s => performUndoN n (performUndo s)

/-! ## The particle shuffle (renderGenerativeText line 815)

The source shuffles with `particles.sort(() => Math.random() - 0.5)`.
`Array.prototype.sort` with an inconsistent comparator is
implementation-defined host behaviour (the sort routine itself is not in
this repository); it is modelled here as a comparator-driven insertion
sort, the behaviour of mainstream engines on short arrays.  `cmp k`
records whether the k-th comparator call returned a negative value
(probability 1/2, since `Math.random() - 0.5 < 0` iff `Math.random() <
0.5`), i.e. whether the element being inserted sorts before the element
it is compared with. -/

/-- Insert one element using successive comparator outcomes; returns the
new list and the next comparator-call counter. -/
def insertCmp (cmp : ℕ → Bool) : ℕ → ℕ → List ℕ → List ℕ × ℕ
  | k, x, [] => ([x], k)
  | k, x, y :: ys =>
      if cmp k then (x :: y :: ys, k + 1)
      else
        let r := insertCmp cmp (k + 1) x ys
        (y :: r.1, r.2)

/-- Comparator-driven insertion sort, threading the comparator-call
counter through the fold. -/
def sortCmpAux (cmp : ℕ → Bool) : ℕ → List ℕ → List ℕ → List ℕ
  | _, acc, [] => acc
  | k, acc, x :: xs =>
      let r := insertCmp cmp k x acc
      sortCmpAux cmp r.2 r.1 xs

/-- Model of `particles.sort(() => Math.random() - 0.5)`. -/
def jsRandomSort (cmp : ℕ → Bool) (l : List ℕ) : List ℕ :=
  sortCmpAux cmp 0 [] l

/-- A three-coin comparator stream for counting the distribution on a
three-element list (at most three comparisons are consumed). -/
def coinStream (c : Bool × Bool × Bool) : ℕ → Bool :=
  fun k => if k = 0 then c.1 else if k = 1 then c.2.1 else if k = 2 then c.2.2 else false

/-! ## Brush physics and the stroke engine

Coordinates, pressures, times and sizes are modelled as real numbers
(JS numbers, with the exact reals standing in for IEEE doubles).  The
`Number.isFinite` guard of drawAndRecordEllipse is vacuous in this model
because every real is finite.  Each call to `Math.random()` is one value
of a stream `rand : ℕ → ℝ` consumed in source order. -/

noncomputable section BrushGeometry

/-- Point from types.ts: `{x, y, pressure, time}`. -/
structure Point where
  x : ℝ
  y : ℝ
  pressure : ℝ
  time : ℝ

/-- BrushSettings from types.ts. -/
structure BrushSettings where
  size : ℝ
  roughness : ℝ
  taper : ℝ
  color : String
  roundness : ℝ
  angle : ℝ
  hardness : ℝ
  spacing : ℝ
  letterSpacing : ℝ
  lineHeight : ℝ
  slant : ℝ
  fontSize : ℝ
  fontStyle : FontStyle
  weightOption : WeightOption
  isEraser : Bool

/-- Math.atan2, modelled via the complex argument (atan2 y x = arg (x + y*I)). -/
def jsAtan2 (y x : ℝ) : ℝ := Complex.arg { re := x, im := y }

/-- getDistance from brushPhysics (part_000 lines 697-699). -/
def getDistance (p1 p2 : Point) : ℝ :=
  Real.sqrt ((p2.x - p1.x) ^ 2 + (p2.y - p1.y) ^ 2)

/-- getAngle from brushPhysics (part_000 lines 704-706). -/
def getAngle (p1 p2 : Point) : ℝ := jsAtan2 (p2.y - p1.y) (p2.x - p1.x)

/-- Result record of calculateBrushPhysics. -/
structure BrushPhysics where
  dist : ℝ
  angle : ℝ
  size : ℝ
  opacity : ℝ
  velocity : ℝ

/-- calculateBrushPhysics (part_000 lines 730-773): velocity with the
non-positive-elapsed-time guard, pressure input (device pressure when it
lies in [0,1], otherwise the velocity-derived synthetic pressure with
maxVelocity 2.5), and the taper-scaled target size. -/
def calculateBrushPhysics (lastPoint currentPoint : Point) (settings : BrushSettings) :
    BrushPhysics :=
  let dist := getDistance lastPoint currentPoint
  let timeDiff := currentPoint.time - lastPoint.time
  let velocity := if 0 < timeDiff then dist / timeDiff else 0
  let maxSize := settings.size * 1.5
  let pressureInput :=
    if 0 ≤ currentPoint.pressure ∧ currentPoint.pressure ≤ 1 then currentPoint.pressure
    else 1 - min 1 (velocity / 2.5)
  let targetSize := maxSize * (1 - (1 - pressureInput) * settings.taper)
  { dist := dist
    angle := getAngle lastPoint currentPoint
    size := targetSize
    opacity := 1.0
    velocity := velocity }

/-- Canvas 2D composite operations used by the stroke engine. -/
inductive CompositeOp
  | sourceOver
  | destinationOut
deriving DecidableEq

/-- The slice of CanvasRenderingContext2D state the stroke engine touches. -/
structure CtxState where
  gco : CompositeOp
  shadowBlur : ℝ
  shadowColor : String
deriving DecidableEq

/-- One raster ellipse stamp, tagged with the composite operation in
effect when it was drawn. -/
structure Stamp where
  x : ℝ
  y : ℝ
  rx : ℝ
  ry : ℝ
  rotation : ℝ
  color : String
  opacity : ℝ
  op : CompositeOp

/-- One vector-log ellipse entry (rotation recorded in degrees, as in the
serialized SVG element). -/
structure SvgEllipse where
  cx : ℝ
  cy : ℝ
  rx : ℝ
  ry : ℝ
  rotDeg : ℝ
  color : String
  opacity : ℝ

/-- drawAndRecordEllipse (geminiService.ts lines 322-355): paint one
ellipse with the context's current composite operation and append the
matching vector entry unless erasing.  The result pairs the raster
stamps painted with the vector entries appended (the caller concatenates
both onto its accumulators, matching the source's push-only mutation).
The source's `Number.isFinite` skip never fires over the reals. -/
def drawAndRecordEllipse (ctx : CtxState) (x y rx ry rotation : ℝ)
    (color : String) (opacity : ℝ) (isEraser : Bool) :
    List Stamp × List SvgEllipse :=
  ([{ x := x, y := y, rx := rx, ry := ry, rotation := rotation,
      color := color, opacity := opacity, op := ctx.gco }],
   if isEraser then []
   else [{ cx := x, cy := y, rx := rx, ry := ry,
           rotDeg := rotation * 180 / Real.pi, color := color, opacity := opacity }])

/-- The preamble of drawStroke (geminiService.ts lines 516-528):
`(targetSize, velocity, dist)`.  When `size > 1` the brush physics runs;
otherwise (hairline mode) physics is skipped, velocity stays 0, the
distance is the direct Euclidean formula and the target size is 0.5 when
the configured size is exactly 0 and the configured size itself otherwise. -/
def strokeParams (settings : BrushSettings) (lastPoint currentPoint : Point) : ℝ × ℝ × ℝ :=
  if 1 < settings.size then
    let physics := calculateBrushPhysics lastPoint currentPoint settings
    (physics.size, physics.velocity, physics.dist)
  else
    ((if settings.size = 0 then 0.5 else settings.size), 0,
     Real.sqrt ((currentPoint.x - lastPoint.x) ^ 2 + (currentPoint.y - lastPoint.y) ^ 2))

/-- The splatter inner loop of drawStroke (geminiService.ts lines
565-574): three offset stamps, each consuming three random values
(angle offset, distance offset, opacity), never flagged as eraser. -/
def splatterLoop (ctx : CtxState) (x y radiusX radiusY brushAngleRad targetSize : ℝ)
    (color : String) (opacity : ℝ) (rand : ℕ → ℝ) :
    ℕ → ℕ → List Stamp × List SvgEllipse × ℕ
  | 0, k => ([], [], k)
  | j + 1, k =>
      let angleOffset := (rand k - 0.5) * Real.pi
      let distOffset := rand (k + 1) * targetSize / 2
      let bx := x + Real.cos (brushAngleRad + angleOffset) * distOffset
      let byy := y + Real.sin (brushAngleRad + angleOffset) * distOffset
      let d := drawAndRecordEllipse ctx bx byy (radiusX * 0.3) (radiusY * 0.3)
                 brushAngleRad color (opacity * 0.4 * rand (k + 2)) false
      let rest := splatterLoop ctx x y radiusX radiusY brushAngleRad targetSize
                    color opacity rand j (k + 3)
      (d.1 ++ rest.1, d.2 ++ rest.2.1, rest.2.2)

/-- The main stamping loop of drawStroke (geminiService.ts lines
549-575), with `n` the remaining iterations, `i` the loop variable and
`k` the random-stream counter.  Each iteration first draws one random
value for the dry-brush test; a skipped iteration consumes nothing else. -/
def strokeStampLoop (settings : BrushSettings) (lastPoint currentPoint : Point)
    (targetSize velocity : ℝ) (steps : ℕ) (brushAngleRad : ℝ)
    (ctx : CtxState) (rand : ℕ → ℝ) :
    ℕ → ℕ → ℕ → List Stamp × List SvgEllipse × ℕ
  | 0, _, k => ([], [], k)
  | n + 1, i, k =>
      let t : ℝ := (i : ℝ) / (steps : ℝ)
      let x := lastPoint.x + (currentPoint.x - lastPoint.x) * t
      let y := lastPoint.y + (currentPoint.y - lastPoint.y) * t
      let roughnessThreshold := rand k
      let dryBrushFactor := velocity * settings.roughness / 5
      if 1 < settings.size ∧ roughnessThreshold < dryBrushFactor ∧ settings.isEraser = false then
        strokeStampLoop settings lastPoint currentPoint targetSize velocity steps
          brushAngleRad ctx rand n (i + 1) (k + 1)
      else
        let radiusX := targetSize / 2
        let radiusY := targetSize / 2 * settings.roundness
        let opacity : ℝ := if settings.size ≤ 1 then 1.0 else 1.0
        let d := drawAndRecordEllipse ctx x y radiusX radiusY brushAngleRad
                   settings.color opacity settings.isEraser
        if 1 < settings.size ∧ (opacity < 0.9 ∨ 0.2 < settings.roughness) ∧
            settings.isEraser = false then
          let spl := splatterLoop ctx x y radiusX radiusY brushAngleRad targetSize
                       settings.color opacity rand 3 (k + 1)
          let rest := strokeStampLoop settings lastPoint currentPoint targetSize velocity
                        steps brushAngleRad ctx rand n (i + 1) spl.2.2
          (d.1 ++ spl.1 ++ rest.1, d.2 ++ spl.2.1 ++ rest.2.1, rest.2.2)
        else
          let rest := strokeStampLoop settings lastPoint currentPoint targetSize velocity
                        steps brushAngleRad ctx rand n (i + 1) (k + 1)
          (d.1 ++ rest.1, d.2 ++ rest.2.1, rest.2.2)

/-- The step count of drawStroke (geminiService.ts lines 531-535):
`steps = ceil(dist / (max(0.5, targetSize * 0.05) + spacing * targetSize * 1.5))`. -/
def strokeSteps (settings : BrushSettings) (lastPoint currentPoint : Point) : ℕ :=
  let params := strokeParams settings lastPoint currentPoint
  let targetSize := params.1
  let dist := params.2.2
  let baseStep := max 0.5 (targetSize * 0.05)
  let spacingFactor := settings.spacing * targetSize * 1.5
  let stepSize := baseStep + spacingFactor
  (Int.ceil (dist / stepSize)).toNat

/-- The context state set up before the stamp loop (geminiService.ts
lines 537-547): destination-out and no glow when erasing, otherwise
source-over with the blur approximation (zero glow when hardness ≥ 0.95
or in hairline mode). -/
def strokeCtx1 (settings : BrushSettings) (lastPoint currentPoint : Point)
    (ctx0 : CtxState) : CtxState :=
  let targetSize := (strokeParams settings lastPoint currentPoint).1
  let blurAmount := if 0.95 ≤ settings.hardness ∨ settings.size ≤ 1 then 0
                    else targetSize * (1 - settings.hardness)
  { gco := if settings.isEraser then CompositeOp.destinationOut else CompositeOp.sourceOver
    shadowBlur := if settings.isEraser then 0 else blurAmount
    shadowColor := if settings.isEraser then ctx0.shadowColor else settings.color }

/-- drawStroke (geminiService.ts lines 509-580) for one movement segment:
compute the stroke parameters, step count and blur, set the composite
operation (destination-out when erasing) and shadow, run the stamp loop,
then reset shadowBlur to 0 and the composite operation to source-over.
Returns the final context state, the raster stamps painted and the
drawing-layer vector log after the segment (`svg0` plus appended
entries).  The source also computes a path angle (line 530) that no
stamp uses; it is dead code and not carried here. -/
def drawStroke (settings : BrushSettings) (lastPoint currentPoint : Point)
    (rand : ℕ → ℝ) (ctx0 : CtxState) (svg0 : List SvgEllipse) :
    CtxState × List Stamp × List SvgEllipse :=
  let body := strokeStampLoop settings lastPoint currentPoint
                (strokeParams settings lastPoint currentPoint).1
                (strokeParams settings lastPoint currentPoint).2.1
                (strokeSteps settings lastPoint currentPoint)
                (settings.angle * (Real.pi / 180))
                (strokeCtx1 settings lastPoint currentPoint ctx0) rand
                (strokeSteps settings lastPoint currentPoint) 0 0
  ({ gco := CompositeOp.sourceOver, shadowBlur := 0
     shadowColor := (strokeCtx1 settings lastPoint currentPoint ctx0).shadowColor },
   body.1, svg0 ++ body.2.1)

/-! ## Text particle animation (renderGenerativeText / animateText) -/

/-- Particle candidate position from the glyph scan. -/
structure Particle where
  x : ℝ
  y : ℝ

/-- Nominal particle size per weight option (geminiService.ts lines
784-800). -/
def particleSizeOf (w : WeightOption) : ℝ :=
  match w with
  | WeightOption.THIN => 1.6
  | WeightOption.NORMAL => 3.5
  | WeightOption.BOLD => 6.0

/-- Style-dependent roughness for generated text (geminiService.ts lines
818-832). -/
def textRoughness (mode : AppMode) (settings : BrushSettings) : ℝ :=
  if mode = AppMode.GENERATE then
    match settings.fontStyle with
    | FontStyle.BRUSH => 0.4
    | FontStyle.PEN => 0.05
    | FontStyle.HAND => 0.02
  else 0

/-- Style-dependent roundness for generated text (geminiService.ts lines
818-832). -/
def textRoundness (mode : AppMode) (settings : BrushSettings) : ℝ :=
  if mode = AppMode.GENERATE then
    match settings.fontStyle with
    | FontStyle.BRUSH => 0.6
    | FontStyle.PEN => 0.95
    | FontStyle.HAND => 1.0
  else 1.0

/-- Stamping of one text particle (geminiService.ts lines 849-857):
jiggle, randomized size, style roundness, near-opaque alpha and the
fixed 45-degree brush angle; consumes four random values. -/
def stampParticle (settings : BrushSettings) (particleSize roughness roundness : ℝ)
    (ctx : CtxState) (rand : ℕ → ℝ) (p : Particle) (k : ℕ) :
    List Stamp × List SvgEllipse :=
  let jiggle := if settings.weightOption = WeightOption.THIN then 0.1 else roughness * 1.5
  let jx := p.x + (rand k - 0.5) * jiggle
  let jy := p.y + (rand (k + 1) - 0.5) * jiggle
  let currentParticleSize := particleSize * (0.85 + rand (k + 2) * 0.3)
  let radiusX := currentParticleSize / 2
  let radiusY := currentParticleSize / 2 * roundness
  let opacity := 0.95 + rand (k + 3) * 0.05
  let brushAngleRad := (45 : ℝ) * (Real.pi / 180)
  drawAndRecordEllipse ctx jx jy radiusX radiusY brushAngleRad settings.color opacity false

/-- The per-particle animation loop of animateText (geminiService.ts
lines 840-859), processed to queue exhaustion (the 1000-particle batch
boundary only toggles shadow state between ticks and does not change
which particles are stamped).  The short-circuiting drop test
`mode === GENERATE && fontStyle === 'BRUSH' && Math.random() < 0.1`
consumes a random value only when the first two conjuncts hold; a
dropped particle consumes nothing further. -/
def animateParticles (mode : AppMode) (settings : BrushSettings)
    (particleSize roughness roundness : ℝ) (ctx : CtxState) (rand : ℕ → ℝ) :
    List Particle → ℕ → List Stamp × List SvgEllipse × ℕ
  | [], k => ([], [], k)
  | p :: ps, k =>
      if mode = AppMode.GENERATE ∧ settings.fontStyle = FontStyle.BRUSH then
        if rand k < 0.1 then
          animateParticles mode settings particleSize roughness roundness ctx rand ps (k + 1)
        else
          let d := stampParticle settings particleSize roughness roundness ctx rand p (k + 1)
          let rest := animateParticles mode settings particleSize roughness roundness
                        ctx rand ps (k + 5)
          (d.1 ++ rest.1, d.2 ++ rest.2.1, rest.2.2)
      else
        let d := stampParticle settings particleSize roughness roundness ctx rand p k
        let rest := animateParticles mode settings particleSize roughness roundness
                      ctx rand ps (k + 4)
        (d.1 ++ rest.1, d.2 ++ rest.2.1, rest.2.2)

/-! ## Concrete fixtures used by witnesses and counterexamples -/

/-- A neutral context state before a stroke. -/
def defaultCtx : CtxState :=
  { gco := CompositeOp.sourceOver, shadowBlur := 0, shadowColor := "#000000" }

/-- A hairline configuration: size exactly 1 (so hairline mode is
active but the size is not 0). -/
def hairlineSettings : BrushSettings :=
  { size := 1, roughness := 0, taper := 0, color := "#000000", roundness := 1,
    angle := 0, hardness := 1, spacing := 0, letterSpacing := 0, lineHeight := 1.2,
    slant := 0, fontSize := 100, fontStyle := FontStyle.PEN,
    weightOption := WeightOption.NORMAL, isEraser := false }

/-- The end-to-end scenario configuration of claim C2, with the brush
angle left free. -/
def c2Settings (a : ℝ) : BrushSettings :=
  { size := 20, roughness := 0, taper := 0, color := "#000000", roundness := 1,
    angle := a, hardness := 1, spacing := 0, letterSpacing := 0, lineHeight := 1.2,
    slant := 0, fontSize := 100, fontStyle := FontStyle.BRUSH,
    weightOption := WeightOption.NORMAL, isEraser := false }

/-- Sample (0, 0) at time 0 with a free pressure. -/
def c2P0 (pr : ℝ) : Point := { x := 0, y := 0, pressure := pr, time := 0 }

/-- Sample (100, 0) at time 100 with a free pressure. -/
def c2P1 (pr : ℝ) : Point := { x := 100, y := 0, pressure := pr, time := 100 }

/-- An eraser configuration. -/
def eraserSettings : BrushSettings :=
  { size := 20, roughness := 0.3, taper := 0.5, color := "#000000", roundness := 1,
    angle := 45, hardness := 0.5, spacing := 0, letterSpacing := 0, lineHeight := 1.2,
    slant := 0, fontSize := 100, fontStyle := FontStyle.BRUSH,
    weightOption := WeightOption.NORMAL, isEraser := true }

/-- A BRUSH-style configuration with the THIN weight (the combination
claim C4 asserts is never dropped). -/
def brushThinSettings : BrushSettings :=
  { size := 80, roughness := 0.4, taper := 0.6, color := "#000000", roundness := 0.6,
    angle := 45, hardness := 0.4, spacing := 0, letterSpacing := 0, lineHeight := 1.2,
    slant := 0, fontSize := 100, fontStyle := FontStyle.BRUSH,
    weightOption := WeightOption.THIN, isEraser := false }

/-- A HAND-style configuration (no particle is ever dropped for it). -/
def handSettings : BrushSettings :=
  { size := 50, roughness := 0.1, taper := 0.5, color := "#000000", roundness := 1,
    angle := 0, hardness := 0.8, spacing := 0, letterSpacing := 0, lineHeight := 1.2,
    slant := 0, fontSize := 100, fontStyle := FontStyle.HAND,
    weightOption := WeightOption.NORMAL, isEraser := false }

/-- A mid-size configuration for the brush-physics witnesses. -/
def physicsSettings : BrushSettings :=
  { size := 2, roughness := 0, taper := 1, color := "#000000", roundness := 1,
    angle := 0, hardness := 1, spacing := 0, letterSpacing := 0, lineHeight := 1.2,
    slant := 0, fontSize := 100, fontStyle := FontStyle.PEN,
    weightOption := WeightOption.NORMAL, isEraser := false }

/-- Sample (0, 0) at time 10. -/
def pLate : Point := { x := 0, y := 0, pressure := 0.5, time := 10 }

/-- Sample (3, 4) at time 10 (zero elapsed time from pLate). -/
def pSame : Point := { x := 3, y := 4, pressure := 0.5, time := 10 }

end BrushGeometry

/-! ## History lemmas -/

theorem saveHistory_fill (s : CanvasState α β)
    (hidx : s.index + 1 = s.history.length) (hlen : s.history.length < MAX_HISTORY) :
    saveHistory s =
      { history := s.history ++ [{ imageData := s.canvas, svgPaths := s.svg }]
        index := s.index + 1, canvas := s.canvas, svg := s.svg } := by
  have hA : ¬ ((s.index : ℤ) < (s.history.length : ℤ) - 1) := by omega
  have hB : ¬ (MAX_HISTORY <
      (s.history ++ [({ imageData := s.canvas, svgPaths := s.svg } : HistoryStep α β)]).length) := by
    simp only [List.length_append, List.length_cons, List.length_nil]
    omega
  unfold saveHistory
  rw [if_neg hA, if_neg hB]

theorem saveHistory_sat (s : CanvasState α β)
    (hidx : s.index + 1 = s.history.length) (hlen : s.history.length = MAX_HISTORY) :
    saveHistory s =
      { history := List.drop 1
          (s.history ++ [{ imageData := s.canvas, svgPaths := s.svg }])
        index := s.index, canvas := s.canvas, svg := s.svg } := by
  have hA : ¬ ((s.index : ℤ) < (s.history.length : ℤ) - 1) := by omega
  have hB : MAX_HISTORY <
      (s.history ++ [({ imageData := s.canvas, svgPaths := s.svg } : HistoryStep α β)]).length := by
    simp only [List.length_append, List.length_cons, List.length_nil]
    omega
  unfold saveHistory
  rw [if_neg hA, if_pos hB]

theorem mutateThenSave_fill (m : α × List β) (s : CanvasState α β)
    (hidx : s.index + 1 = s.history.length) (hlen : s.history.length < MAX_HISTORY) :
    mutateThenSave m s =
      { history := s.history ++ [{ imageData := m.1, svgPaths := m.2 }]
        index := s.index + 1, canvas := m.1, svg := m.2 } := by
  unfold mutateThenSave
  exact saveHistory_fill { s with canvas := m.1, svg := m.2 } hidx hlen

theorem mutateThenSave_sat (m : α × List β) (s : CanvasState α β)
    (hidx : s.index + 1 = s.history.length) (hlen : s.history.length = MAX_HISTORY) :
    mutateThenSave m s =
      { history := List.drop 1 (s.history ++ [{ imageData := m.1, svgPaths := m.2 }])
        index := s.index, canvas := m.1, svg := m.2 } := by
  unfold mutateThenSave
  exact saveHistory_sat { s with canvas := m.1, svg := m.2 } hidx hlen

theorem runSaves_cons (m : α × List β) (ms : List (α × List β)) (s : CanvasState α β) :
    runSaves (m :: ms) s = runSaves ms (mutateThenSave m s) := rfl

theorem runSaves_fill (ms : List (α × List β)) :
    ∀ s : CanvasState α β, s.index + 1 = s.history.length →
      s.history.length + ms.length ≤ MAX_HISTORY →
      (runSaves ms s).history
          = s.history ++ ms.map (fun m => { imageData := m.1, svgPaths := m.2 }) ∧
      (runSaves ms s).index = s.index + ms.length := by
  induction ms with
  | nil => intro s _ _; simp [runSaves]
  | cons m ms ih =>
    intro s h1 h2
    rw [runSaves_cons,
        mutateThenSave_fill m s h1 (by simp only [List.length_cons] at h2; omega)]
    obtain ⟨hh, hi⟩ := ih
      { history := s.history ++ [{ imageData := m.1, svgPaths := m.2 }]
        index := s.index + 1, canvas := m.1, svg := m.2 }
      (by simp only [List.length_append, List.length_cons, List.length_nil]; omega)
      (by simp only [List.length_append, List.length_cons, List.length_nil] at h2 ⊢; omega)
    refine ⟨?_, ?_⟩
    · rw [hh]; simp
    · rw [hi]; simp only [List.length_cons]; omega

theorem runSaves_sat (ms : List (α × List β)) :
    ∀ s : CanvasState α β, s.index + 1 = s.history.length →
      s.history.length = MAX_HISTORY →
      (runSaves ms s).history.length = MAX_HISTORY ∧ (runSaves ms s).index = s.index := by
  induction ms with
  | nil => intro s _ h2; exact ⟨h2, rfl⟩
  | cons m ms ih =>
    intro s h1 h2
    rw [runSaves_cons, mutateThenSave_sat m s h1 h2]
    obtain ⟨hh, hi⟩ := ih
      { history := List.drop 1 (s.history ++ [{ imageData := m.1, svgPaths := m.2 }])
        index := s.index, canvas := m.1, svg := m.2 }
      (by simp only [List.length_drop, List.length_append, List.length_cons,
            List.length_nil]; omega)
      (by simp only [List.length_drop, List.length_append, List.length_cons,
            List.length_nil]; omega)
    exact ⟨hh, hi⟩

theorem performUndo_eq (s : CanvasState α β) (st : HistoryStep α β)
    (hpos : 0 < s.index) (hst : s.history[s.index - 1]? = some st) :
    performUndo s =
      { s with index := s.index - 1, canvas := st.imageData, svg := st.svgPaths } := by
  unfold performUndo
  rw [if_pos hpos]
  simp only [hst]

theorem performUndo_noop (s : CanvasState α β) (h : s.index = 0) :
    performUndo s = s := by
  unfold performUndo
  rw [if_neg (by omega)]

theorem performUndoN_run (j : ℕ) :
    ∀ s : CanvasState α β, j ≤ s.index → s.index < s.history.length →
      (performUndoN j s).history = s.history ∧
      (performUndoN j s).index = s.index - j ∧
      (0 < j → ∃ st, s.history[s.index - j]? = some st ∧
        (performUndoN j s).canvas = st.imageData ∧ (performUndoN j s).svg = st.svgPaths) := by
  induction j with
  | zero =>
    intro s _ _
    exact ⟨rfl, by simp [performUndoN], fun h => absurd h (lt_irrefl 0)⟩
  | succ j ih =>
    intro s h1 h2
    have hpos : 0 < s.index := by omega
    have hi : s.index - 1 < s.history.length := by omega
    obtain ⟨st, hst⟩ : ∃ st, s.history[s.index - 1]? = some st :=
      ⟨_, List.getElem?_eq_getElem hi⟩
    have hstep : performUndoN (j + 1) s = performUndoN j (performUndo s) := rfl
    rw [hstep, performUndo_eq s st hpos hst]
    obtain ⟨hh, hidx, hc⟩ := ih
      { s with index := s.index - 1, canvas := st.imageData, svg := st.svgPaths }
      (by show j ≤ s.index - 1; omega) (by show s.index - 1 < s.history.length; omega)
    have hh' : (performUndoN j
        { s with index := s.index - 1, canvas := st.imageData, svg := st.svgPaths }).history
        = s.history := hh
    have hidx' : (performUndoN j
        { s with index := s.index - 1, canvas := st.imageData, svg := st.svgPaths }).index
        = s.index - 1 - j := hidx
    refine ⟨hh', by rw [hidx']; omega, ?_⟩
    intro _
    rcases Nat.eq_zero_or_pos j with hj | hj
    · subst hj
      refine ⟨st, ?_, by simp [performUndoN], by simp [performUndoN]⟩
      simpa using hst
    · obtain ⟨st', hst', hc', hs'⟩ := hc hj
      have hst'' : s.history[s.index - 1 - j]? = some st' := hst'
      refine ⟨st', ?_, hc', hs'⟩
      have heq : s.index - 1 - j = s.index - (j + 1) := by omega
      rwa [heq] at hst''

/-- C3: the claim asserts the round trip for every N ≤ 20; it holds only
for N ≤ 19.  Starting from the single blank HistoryStep at index 0,
N stroke-plus-save cycles followed by N undo calls restore the drawing
layer's raster content and vector log to the blank state, for every
N ≤ 19 and arbitrary intermediate stroke contents. -/
theorem historyRoundTripUpTo19 (blank : α) (ms : List (α × List β))
    (h : ms.length ≤ 19) :
    (performUndoN ms.length (runSaves ms (initialState blank))).canvas = blank ∧
    (performUndoN ms.length (runSaves ms (initialState blank))).svg = [] := by
  obtain ⟨hh, hi⟩ := runSaves_fill ms (initialState blank)
    (by simp [initialState]) (by simp [initialState, MAX_HISTORY]; omega)
  rcases Nat.eq_zero_or_pos ms.length with h0 | hpos
  · obtain rfl : ms = [] := List.length_eq_zero.mp h0
    simp [performUndoN, runSaves, initialState]
  · have hidx : (runSaves ms (initialState blank)).index = ms.length := by
      rw [hi]; simp [initialState]
    have hlen : (runSaves ms (initialState blank)).history.length = ms.length + 1 := by
      rw [hh]; simp [initialState]
    obtain ⟨_, _, hc⟩ := performUndoN_run ms.length (runSaves ms (initialState blank))
      (by omega) (by omega)
    obtain ⟨st, hst, hcanvas, hsvg⟩ := hc hpos
    have h0' : (runSaves ms (initialState blank)).index - ms.length = 0 := by omega
    rw [h0', hh] at hst
    simp [initialState] at hst
    subst hst
    exact ⟨hcanvas, hsvg⟩

set_option maxRecDepth 8000 in
/-- C3 counterexample: with 20 non-blank stroke contents, 20 saves evict
the blank root step, so 20 undos end at the first stroke's content
(raster 1), not the blank raster 0. -/
theorem historyRoundTripFailsAt20 :
    (performUndoN 20 (runSaves ((List.range 20).map fun k => ((k + 1 : ℕ), ([] : List ℕ)))
        (initialState 0))).canvas = 1 ∧ (1 : ℕ) ≠ 0 := by
  constructor
  · decide
  · decide

/-- C3 witness: one save of raster 5 / log [7], then one undo, returns
to the blank state. -/
theorem historyRoundTripUpTo19_witness :
    ([((5 : ℕ), [(7 : ℕ)])].length ≤ 19) ∧
    ((performUndoN [((5 : ℕ), [(7 : ℕ)])].length
        (runSaves [((5 : ℕ), [(7 : ℕ)])] (initialState 0))).canvas = 0 ∧
     (performUndoN [((5 : ℕ), [(7 : ℕ)])].length
        (runSaves [((5 : ℕ), [(7 : ℕ)])] (initialState 0))).svg = []) :=
  ⟨by decide, historyRoundTripUpTo19 0 [((5 : ℕ), [(7 : ℕ)])] (by decide)⟩

/-- C6: after 25 saves from the initial single blank step, exactly 20
steps remain, the current index is 19 (the last retained step), each of
the first 19 undo calls acts from a positive index, the 19th lands on
index 0 (the oldest retained step) and a further undo is a no-op. -/
theorem boundedHistoryAfter25 (blank : α) (ms : List (α × List β))
    (h : ms.length = 25) :
    (runSaves ms (initialState blank)).history.length = 20 ∧
    (runSaves ms (initialState blank)).index = 19 ∧
    (∀ j, j < 19 → 0 < (performUndoN j (runSaves ms (initialState blank))).index) ∧
    (performUndoN 19 (runSaves ms (initialState blank))).index = 0 ∧
    performUndo (performUndoN 19 (runSaves ms (initialState blank)))
      = performUndoN 19 (runSaves ms (initialState blank)) := by
  have hrs : runSaves ms (initialState blank)
      = runSaves (ms.drop 19) (runSaves (ms.take 19) (initialState blank)) := by
    conv_lhs => rw [← List.take_append_drop 19 ms]
    unfold runSaves
    rw [List.foldl_append]
  have ht19 : (ms.take 19).length = 19 := by rw [List.length_take]; omega
  obtain ⟨hh1, hi1⟩ := runSaves_fill (ms.take 19) (initialState blank)
    (by simp [initialState]) (by simp [initialState, MAX_HISTORY, ht19])
  have hlen1 : (runSaves (ms.take 19) (initialState blank)).history.length = 20 := by
    rw [hh1]
    simp only [initialState, List.length_append, List.length_cons, List.length_nil,
      List.length_map, List.length_take]
    omega
  have hidx1 : (runSaves (ms.take 19) (initialState blank)).index = 19 := by
    rw [hi1]
    simp only [initialState, List.length_take]
    omega
  obtain ⟨hlen2, hidx2⟩ := runSaves_sat (ms.drop 19) (runSaves (ms.take 19) (initialState blank))
    (by omega) (by rw [hlen1]; rfl)
  rw [hrs]
  have hlen : (runSaves (ms.drop 19) (runSaves (ms.take 19) (initialState blank))).history.length
      = 20 := hlen2
  have hidx : (runSaves (ms.drop 19) (runSaves (ms.take 19) (initialState blank))).index
      = 19 := by rw [hidx2, hidx1]
  refine ⟨hlen, hidx, ?_, ?_, ?_⟩
  · intro j hj
    obtain ⟨_, hi', _⟩ := performUndoN_run j
      (runSaves (ms.drop 19) (runSaves (ms.take 19) (initialState blank)))
      (by omega) (by omega)
    omega
  · obtain ⟨_, hi', _⟩ := performUndoN_run 19
      (runSaves (ms.drop 19) (runSaves (ms.take 19) (initialState blank)))
      (by omega) (by omega)
    omega
  · apply performUndo_noop
    obtain ⟨_, hi', _⟩ := performUndoN_run 19
      (runSaves (ms.drop 19) (runSaves (ms.take 19) (initialState blank)))
      (by omega) (by omega)
    omega

/-- C6 witness: 25 concrete saves of raster 1 with empty logs. -/
theorem boundedHistoryAfter25_witness :
    ((List.replicate 25 ((1 : ℕ), ([] : List ℕ))).length = 25) ∧
    ((runSaves (List.replicate 25 ((1 : ℕ), ([] : List ℕ))) (initialState 0)).history.length = 20 ∧
     (runSaves (List.replicate 25 ((1 : ℕ), ([] : List ℕ))) (initialState 0)).index = 19 ∧
     (∀ j, j < 19 → 0 < (performUndoN j (runSaves (List.replicate 25 ((1 : ℕ), ([] : List ℕ)))
         (initialState 0))).index) ∧
     (performUndoN 19 (runSaves (List.replicate 25 ((1 : ℕ), ([] : List ℕ)))
         (initialState 0))).index = 0 ∧
     performUndo (performUndoN 19 (runSaves (List.replicate 25 ((1 : ℕ), ([] : List ℕ)))
         (initialState 0)))
       = performUndoN 19 (runSaves (List.replicate 25 ((1 : ℕ), ([] : List ℕ)))
         (initialState 0))) :=
  ⟨by decide, boundedHistoryAfter25 0 (List.replicate 25 ((1 : ℕ), ([] : List ℕ))) (by decide)⟩

/-! ## Shuffle lemmas -/

theorem insertCmp_perm (cmp : ℕ → Bool) (x : ℕ) :
    ∀ (l : List ℕ) (k : ℕ), (insertCmp cmp k x l).1.Perm (x :: l) := by
  intro l
  induction l with
  | nil => intro k; simp [insertCmp]
  | cons y ys ih =>
    intro k
    unfold insertCmp
    by_cases h : cmp k
    · simp [h]
    · simp only [h, Bool.false_eq_true, if_false]
      exact ((ih (k + 1)).cons y).trans (List.Perm.swap x y ys)

theorem sortCmpAux_perm (cmp : ℕ → Bool) :
    ∀ (xs acc : List ℕ) (k : ℕ), (sortCmpAux cmp k acc xs).Perm (acc ++ xs) := by
  intro xs
  induction xs with
  | nil => intro acc k; simp [sortCmpAux]
  | cons x xs ih =>
    intro acc k
    unfold sortCmpAux
    refine (ih (insertCmp cmp k x acc).1 (insertCmp cmp k x acc).2).trans ?_
    refine (((insertCmp_perm cmp x acc k).append_right xs).trans ?_)
    exact List.perm_middle.symm

/-- C9: the reordered particle list is always a permutation of the
candidates (true for any comparator outcomes), but the shuffle is a sort
with a random comparator, not a uniform permutation: on the modelled
host sort (comparator-driven insertion sort) with fair-coin comparator
outcomes over a three-element list, the permutation counts over the
eight equally likely coin triples differ (1 triple yields [0,1,2],
2 triples yield [2,1,0]), so the permutations are not equally likely. -/
theorem particleShuffleNotUniform :
    (∀ (cmp : ℕ → Bool) (l : List ℕ), (jsRandomSort cmp l).Perm l) ∧
    ((Finset.univ.filter fun c : Bool × Bool × Bool =>
        jsRandomSort (coinStream c) [0, 1, 2] = [0, 1, 2]).card ≠
     (Finset.univ.filter fun c : Bool × Bool × Bool =>
        jsRandomSort (coinStream c) [0, 1, 2] = [2, 1, 0]).card) := by
  constructor
  · intro cmp l
    simpa using sortCmpAux_perm cmp l [] 0
  · decide

/-! ## Brush-physics lemmas -/

theorem calculateBrushPhysics_velocity (settings : BrushSettings) (lp cp : Point) :
    (calculateBrushPhysics lp cp settings).velocity
      = if 0 < cp.time - lp.time then getDistance lp cp / (cp.time - lp.time) else 0 := rfl

theorem calculateBrushPhysics_size_of_pressure (settings : BrushSettings) (lp cp : Point)
    (hp : 0 ≤ cp.pressure ∧ cp.pressure ≤ 1) :
    (calculateBrushPhysics lp cp settings).size
      = settings.size * 1.5 * (1 - (1 - cp.pressure) * settings.taper) := by
  show settings.size * 1.5 *
      (1 - (1 - (if 0 ≤ cp.pressure ∧ cp.pressure ≤ 1 then cp.pressure
                 else 1 - min 1 ((calculateBrushPhysics lp cp settings).velocity / 2.5)))
        * settings.taper)
    = settings.size * 1.5 * (1 - (1 - cp.pressure) * settings.taper)
  rw [if_pos hp]

/-- C7: when the elapsed time between two samples is non-positive, the
computed velocity is exactly 0; and the velocity is always a well-defined
non-negative real number (the real-valued embedding's rendering of
"never NaN or Infinity"), because the division only happens under the
positive-elapsed-time guard. -/
theorem velocityGuard (settings : BrushSettings) (lp cp : Point) :
    (cp.time - lp.time ≤ 0 → (calculateBrushPhysics lp cp settings).velocity = 0) ∧
    0 ≤ (calculateBrushPhysics lp cp settings).velocity := by
  rw [calculateBrushPhysics_velocity]
  constructor
  · intro h
    rw [if_neg (not_lt.mpr h)]
  · split_ifs with h
    · exact div_nonneg (by unfold getDistance; positivity) h.le
    · exact le_refl 0

/-- C7 witness: two samples with identical timestamps give velocity 0. -/
theorem velocityGuard_witness :
    (pSame.time - pLate.time ≤ 0) ∧
    (calculateBrushPhysics pLate pSame physicsSettings).velocity = 0 :=
  ⟨by norm_num [pSame, pLate],
   (velocityGuard physicsSettings pLate pSame).1 (by norm_num [pSame, pLate])⟩

/-- C5: for size > 1 and a device pressure p in [0,1] the target size is
(size * 1.5) * (1 - (1 - p) * taper); with taper = 0 it is constantly
maxSize = size * 1.5, and with taper = 1 it is non-decreasing in p with
value maxSize at p = 1 and 0 at p = 0. -/
theorem brushPhysicsTargetSize (settings : BrushSettings) (lp cp : Point)
    (hsize : 1 < settings.size) :
    (∀ p : ℝ, 0 ≤ p → p ≤ 1 →
      (calculateBrushPhysics lp { cp with pressure := p } settings).size
        = settings.size * 1.5 * (1 - (1 - p) * settings.taper)) ∧
    (settings.taper = 0 → ∀ p : ℝ, 0 ≤ p → p ≤ 1 →
      (calculateBrushPhysics lp { cp with pressure := p } settings).size
        = settings.size * 1.5) ∧
    (settings.taper = 1 →
      (∀ p q : ℝ, 0 ≤ p → p ≤ q → q ≤ 1 →
        (calculateBrushPhysics lp { cp with pressure := p } settings).size
          ≤ (calculateBrushPhysics lp { cp with pressure := q } settings).size) ∧
      (calculateBrushPhysics lp { cp with pressure := 1 } settings).size
        = settings.size * 1.5 ∧
      (calculateBrushPhysics lp { cp with pressure := 0 } settings).size = 0) := by
  have key : ∀ p : ℝ, 0 ≤ p → p ≤ 1 →
      (calculateBrushPhysics lp { cp with pressure := p } settings).size
        = settings.size * 1.5 * (1 - (1 - p) * settings.taper) := by
    intro p hp0 hp1
    exact calculateBrushPhysics_size_of_pressure settings lp { cp with pressure := p }
      ⟨hp0, hp1⟩
  refine ⟨key, ?_, ?_⟩
  · intro ht p hp0 hp1
    rw [key p hp0 hp1, ht]
    ring
  · intro ht
    refine ⟨?_, ?_, ?_⟩
    · intro p q hp0 hpq hq1
      rw [key p hp0 (hpq.trans hq1), key q (hp0.trans hpq) hq1, ht]
      nlinarith
    · rw [key 1 (by norm_num) (by norm_num), ht]
      ring
    · rw [key 0 (by norm_num) (by norm_num), ht]
      ring

/-- C5 witness: the taper-1 configuration of size 2 at pressures 0,
1/2 and 1. -/
theorem brushPhysicsTargetSize_witness :
    (1 < physicsSettings.size) ∧
    (calculateBrushPhysics pLate { pSame with pressure := 0.5 } physicsSettings).size
      = physicsSettings.size * 1.5 * (1 - (1 - 0.5) * physicsSettings.taper) :=
  ⟨by norm_num [physicsSettings],
   (brushPhysicsTargetSize physicsSettings pLate pSame
      (by norm_num [physicsSettings])).1 0.5 (by norm_num) (by norm_num)⟩

/-! ## Hairline mode (claim C1) -/

/-- C1 (amended): for size ≤ 1 the stroke engine skips the brush physics
(velocity stays 0) and computes the distance directly by the Euclidean
formula, but the stamp size is the fixed minimal 0.5 only when the
configured size is exactly 0; otherwise it is the configured size itself. -/
theorem hairlineStrokeParams (settings : BrushSettings) (lp cp : Point)
    (h : settings.size ≤ 1) :
    strokeParams settings lp cp =
      ((if settings.size = 0 then 0.5 else settings.size), 0,
       Real.sqrt ((cp.x - lp.x) ^ 2 + (cp.y - lp.y) ^ 2)) := by
  unfold strokeParams
  rw [if_neg (not_lt.mpr h)]

/-- C1 counterexample: with configured size 1 (hairline mode, since
1 ≤ 1) the stamp size is 1, not the fixed 0.5 the claim asserts. -/
theorem hairlineStampSizeNotHalf :
    hairlineSettings.size ≤ 1 ∧
    (strokeParams hairlineSettings pLate pSame).1 = 1 ∧
    (1 : ℝ) ≠ 0.5 := by
  refine ⟨by norm_num [hairlineSettings], ?_, by norm_num⟩
  unfold strokeParams
  rw [if_neg (by norm_num [hairlineSettings])]
  show (if hairlineSettings.size = 0 then (0.5 : ℝ) else hairlineSettings.size) = 1
  rw [if_neg (by norm_num [hairlineSettings])]
  norm_num [hairlineSettings]

/-- C1 witness: the amended statement evaluated at the size-1 hairline
configuration and the samples (0,0,t=10) and (3,4,t=10). -/
theorem hairlineStrokeParams_witness :
    hairlineSettings.size ≤ 1 ∧
    strokeParams hairlineSettings pLate pSame =
      ((if hairlineSettings.size = 0 then 0.5 else hairlineSettings.size), 0,
       Real.sqrt ((pSame.x - pLate.x) ^ 2 + (pSame.y - pLate.y) ^ 2)) :=
  ⟨by norm_num [hairlineSettings],
   hairlineStrokeParams hairlineSettings pLate pSame (by norm_num [hairlineSettings])⟩

/-! ## Context restoration (claim C10) -/

/-- C10: every drawStroke invocation (eraser or not) returns the drawing
context with globalCompositeOperation reset to source-over and shadowBlur
reset to 0, so eraser compositing and glow never leak into later stamps. -/
theorem drawStrokeResetsContext (settings : BrushSettings) (lp cp : Point)
    (rand : ℕ → ℝ) (ctx0 : CtxState) (svg0 : List SvgEllipse) :
    (drawStroke settings lp cp rand ctx0 svg0).1.gco = CompositeOp.sourceOver ∧
    (drawStroke settings lp cp rand ctx0 svg0).1.shadowBlur = 0 :=
  ⟨rfl, rfl⟩

/-! ## Eraser semantics (claim C8) -/

theorem strokeStampLoop_eraser (settings : BrushSettings) (lp cp : Point)
    (targetSize velocity : ℝ) (steps : ℕ) (brushAngleRad : ℝ) (ctx : CtxState)
    (rand : ℕ → ℝ) (hE : settings.isEraser = true) :
    ∀ n i k,
      (strokeStampLoop settings lp cp targetSize velocity steps brushAngleRad
        ctx rand n i k).2.1 = [] ∧
      ∀ st ∈ (strokeStampLoop settings lp cp targetSize velocity steps brushAngleRad
        ctx rand n i k).1, st.op = ctx.gco := by
  intro n
  induction n with
  | zero =>
    intro i k
    exact ⟨rfl, by intro st h; simp [strokeStampLoop] at h⟩
  | succ n ih =>
    intro i k
    obtain ⟨ih1, ih2⟩ := ih (i + 1) (k + 1)
    unfold strokeStampLoop
    rw [if_neg (by simp [hE]), if_neg (by simp [hE])]
    constructor
    · simp only [drawAndRecordEllipse, hE, if_true, List.nil_append]
      exact ih1
    · intro st hst
      simp only [drawAndRecordEllipse, List.mem_append, List.mem_singleton] at hst
      rcases hst with h | h
      · rw [h]
      · exact ih2 st h

/-- C8: a stroke segment drawn with isEraser = true appends nothing to
the vector log, and every stamp it paints carries the destination-out
(clear/subtract) composite operation on the raster surface. -/
theorem eraserExcludedFromVectorLog (settings : BrushSettings) (lp cp : Point)
    (rand : ℕ → ℝ) (ctx0 : CtxState) (svg0 : List SvgEllipse)
    (hE : settings.isEraser = true) :
    (drawStroke settings lp cp rand ctx0 svg0).2.2 = svg0 ∧
    ∀ st ∈ (drawStroke settings lp cp rand ctx0 svg0).2.1,
      st.op = CompositeOp.destinationOut := by
  obtain ⟨h1, h2⟩ := strokeStampLoop_eraser settings lp cp
    (strokeParams settings lp cp).1 (strokeParams settings lp cp).2.1
    (strokeSteps settings lp cp) (settings.angle * (Real.pi / 180))
    (strokeCtx1 settings lp cp ctx0) rand hE
    (strokeSteps settings lp cp) 0 0
  have hgco : (strokeCtx1 settings lp cp ctx0).gco = CompositeOp.destinationOut := by
    simp [strokeCtx1, hE]
  constructor
  · show svg0 ++ (strokeStampLoop settings lp cp
        (strokeParams settings lp cp).1 (strokeParams settings lp cp).2.1
        (strokeSteps settings lp cp) (settings.angle * (Real.pi / 180))
        (strokeCtx1 settings lp cp ctx0) rand
        (strokeSteps settings lp cp) 0 0).2.1 = svg0
    rw [h1, List.append_nil]
  · intro st hst
    rw [← hgco]
    exact h2 st hst

/-! ## End-to-end scenario (claim C2) -/

theorem strokeStampLoop_plain (settings : BrushSettings) (lp cp : Point)
    (targetSize velocity : ℝ) (steps : ℕ) (brushAngleRad : ℝ) (ctx : CtxState)
    (rand : ℕ → ℝ)
    (hskip : ∀ m : ℕ, ¬ (rand m < velocity * settings.roughness / 5))
    (hsplat : ¬ ((if settings.size ≤ 1 then (1.0 : ℝ) else 1.0) < 0.9 ∨
                 0.2 < settings.roughness)) :
    ∀ n i k,
      (strokeStampLoop settings lp cp targetSize velocity steps brushAngleRad
        ctx rand n i k).1.length = n ∧
      ∀ st ∈ (strokeStampLoop settings lp cp targetSize velocity steps brushAngleRad
        ctx rand n i k).1, ∃ j : ℕ, st =
          { x := lp.x + (cp.x - lp.x) * ((j : ℝ) / (steps : ℝ))
            y := lp.y + (cp.y - lp.y) * ((j : ℝ) / (steps : ℝ))
            rx := targetSize / 2
            ry := targetSize / 2 * settings.roundness
            rotation := brushAngleRad
            color := settings.color
            opacity := if settings.size ≤ 1 then (1.0 : ℝ) else 1.0
            op := ctx.gco } := by
  intro n
  induction n with
  | zero =>
    intro i k
    exact ⟨rfl, by intro st h; simp [strokeStampLoop] at h⟩
  | succ n ih =>
    intro i k
    obtain ⟨ih1, ih2⟩ := ih (i + 1) (k + 1)
    unfold strokeStampLoop
    rw [if_neg (fun hc => hskip k hc.2.1), if_neg (fun hc => hsplat hc.2.1)]
    constructor
    · simp only [drawAndRecordEllipse, List.singleton_append, List.length_cons, ih1]
    · intro st hst
      simp only [drawAndRecordEllipse, List.singleton_append, List.mem_cons] at hst
      rcases hst with h | h
      · exact ⟨i, h⟩
      · exact ih2 st h

theorem c2_params (a pr0 pr1 : ℝ) :
    strokeParams (c2Settings a) (c2P0 pr0) (c2P1 pr1) = (30, 1, 100) := by
  have hdist : getDistance (c2P0 pr0) (c2P1 pr1) = 100 := by
    show Real.sqrt (((100 : ℝ) - 0) ^ 2 + ((0 : ℝ) - 0) ^ 2) = 100
    rw [show ((100 : ℝ) - 0) ^ 2 + ((0 : ℝ) - 0) ^ 2 = 100 ^ 2 by norm_num]
    exact Real.sqrt_sq (by norm_num)
  have hvel : (calculateBrushPhysics (c2P0 pr0) (c2P1 pr1) (c2Settings a)).velocity = 1 := by
    rw [calculateBrushPhysics_velocity]
    rw [if_pos (by norm_num [c2P0, c2P1] :
      (0 : ℝ) < (c2P1 pr1).time - (c2P0 pr0).time)]
    rw [hdist]
    norm_num [c2P0, c2P1]
  have hsize : (calculateBrushPhysics (c2P0 pr0) (c2P1 pr1) (c2Settings a)).size = 30 := by
    show (c2Settings a).size * 1.5 *
        (1 - (1 - (if 0 ≤ (c2P1 pr1).pressure ∧ (c2P1 pr1).pressure ≤ 1
                   then (c2P1 pr1).pressure
                   else 1 - min 1
                     ((calculateBrushPhysics (c2P0 pr0) (c2P1 pr1) (c2Settings a)).velocity
                       / 2.5)))
          * (c2Settings a).taper) = 30
    rw [show (c2Settings a).taper = 0 from rfl, show (c2Settings a).size = 20 from rfl]
    ring_nf
  have hdist2 : (calculateBrushPhysics (c2P0 pr0) (c2P1 pr1) (c2Settings a)).dist = 100 := hdist
  have hlt : (1 : ℝ) < (c2Settings a).size := by norm_num [c2Settings]
  unfold strokeParams
  rw [if_pos hlt]
  exact Prod.ext hsize (Prod.ext hvel hdist2)

theorem c2_steps (a pr0 pr1 : ℝ) :
    strokeSteps (c2Settings a) (c2P0 pr0) (c2P1 pr1) = 67 := by
  unfold strokeSteps
  rw [c2_params]
  show (Int.ceil ((100 : ℝ) / (max 0.5 ((30 : ℝ) * 0.05) + (c2Settings a).spacing * 30 * 1.5))).toNat
    = 67
  rw [show (c2Settings a).spacing = 0 from rfl]
  rw [show max (0.5 : ℝ) ((30 : ℝ) * 0.05) + (0 : ℝ) * 30 * 1.5 = 1.5 by
    rw [max_eq_right (by norm_num : (0.5 : ℝ) ≤ 30 * 0.05)]; norm_num]
  rw [show (100 : ℝ) / 1.5 = 200 / 3 by norm_num]
  rw [show Int.ceil ((200 : ℝ) / 3) = 67 by
    rw [Int.ceil_eq_iff]
    norm_num]
  rfl

theorem c2_stamps (a pr0 pr1 : ℝ) (rand : ℕ → ℝ) (ctx0 : CtxState)
    (svg0 : List SvgEllipse) (hrand : ∀ m : ℕ, 0 ≤ rand m) :
    (drawStroke (c2Settings a) (c2P0 pr0) (c2P1 pr1) rand ctx0 svg0).2.1.length = 67 ∧
    ∀ st ∈ (drawStroke (c2Settings a) (c2P0 pr0) (c2P1 pr1) rand ctx0 svg0).2.1,
      st.y = 0 ∧ st.rx = 15 ∧ st.ry = 15 ∧ st.rotation = a * (Real.pi / 180) ∧
      st.op = CompositeOp.sourceOver := by
  have hskip : ∀ m : ℕ, ¬ (rand m < (1 : ℝ) * (0 : ℝ) / 5) := by
    intro m
    simpa using hrand m
  have hsplat : ¬ ((if (c2Settings a).size ≤ 1 then (1.0 : ℝ) else 1.0) < 0.9 ∨
      0.2 < (c2Settings a).roughness) := by
    norm_num [c2Settings]
  have hbody : (drawStroke (c2Settings a) (c2P0 pr0) (c2P1 pr1) rand ctx0 svg0).2.1
      = (strokeStampLoop (c2Settings a) (c2P0 pr0) (c2P1 pr1)
          (strokeParams (c2Settings a) (c2P0 pr0) (c2P1 pr1)).1
          (strokeParams (c2Settings a) (c2P0 pr0) (c2P1 pr1)).2.1
          (strokeSteps (c2Settings a) (c2P0 pr0) (c2P1 pr1))
          ((c2Settings a).angle * (Real.pi / 180))
          (strokeCtx1 (c2Settings a) (c2P0 pr0) (c2P1 pr1) ctx0) rand
          (strokeSteps (c2Settings a) (c2P0 pr0) (c2P1 pr1)) 0 0).1 := rfl
  rw [hbody, c2_params, c2_steps]
  obtain ⟨hlen, hmem⟩ := strokeStampLoop_plain (c2Settings a) (c2P0 pr0) (c2P1 pr1)
    ((30 : ℝ), (1 : ℝ), (100 : ℝ)).1 ((30 : ℝ), (1 : ℝ), (100 : ℝ)).2.1 67
    ((c2Settings a).angle * (Real.pi / 180))
    (strokeCtx1 (c2Settings a) (c2P0 pr0) (c2P1 pr1) ctx0) rand hskip hsplat 67 0 0
  refine ⟨hlen, ?_⟩
  intro st hst
  obtain ⟨j, hj⟩ := hmem st hst
  have hgco : (strokeCtx1 (c2Settings a) (c2P0 pr0) (c2P1 pr1) ctx0).gco
      = CompositeOp.sourceOver := by
    simp [strokeCtx1, c2Settings]
  subst hj
  refine ⟨?_, ?_, ?_, ?_, hgco⟩
  · show (c2P0 pr0).y + ((c2P1 pr1).y - (c2P0 pr0).y) * ((j : ℝ) / ((67 : ℕ) : ℝ)) = 0
    norm_num [c2P0, c2P1]
  · show ((30 : ℝ), (1 : ℝ), (100 : ℝ)).1 / 2 = 15
    norm_num
  · show ((30 : ℝ), (1 : ℝ), (100 : ℝ)).1 / 2 * (c2Settings a).roundness = 15
    norm_num [c2Settings]
  · show (c2Settings a).angle * (Real.pi / 180) = a * (Real.pi / 180)
    rfl

/-- C2 (amended): for the configuration {size=20, roundness=1,
spacing=0, roughness=0, taper=0, hardness=1} and samples (0,0,t=0),
(100,0,t=100), one drawStroke segment emits exactly 67 stamps (steps =
ceil(100 / 1.5), because taper=0 makes targetSize = 20 * 1.5 = 30 and
stepSize = max(0.5, 30*0.05) = 1.5), not the 100 stamps the claim
computes; all stamps lie on y = 0 with radiusX = radiusY = 15 (not 10),
rotation equal to the configured angle (in radians) and source-over
compositing, and none is skipped by the dry-brush rule. -/
theorem endToEndScenario (a pr0 pr1 : ℝ) (rand : ℕ → ℝ) (ctx0 : CtxState)
    (svg0 : List SvgEllipse) (hrand : ∀ m : ℕ, 0 ≤ rand m) :
    (drawStroke (c2Settings a) (c2P0 pr0) (c2P1 pr1) rand ctx0 svg0).2.1.length = 67 ∧
    ∀ st ∈ (drawStroke (c2Settings a) (c2P0 pr0) (c2P1 pr1) rand ctx0 svg0).2.1,
      st.y = 0 ∧ st.rx = 15 ∧ st.ry = 15 ∧ st.rotation = a * (Real.pi / 180) ∧
      st.op = CompositeOp.sourceOver :=
  c2_stamps a pr0 pr1 rand ctx0 svg0 hrand

/-- C2 counterexample: at the concrete instance (angle 0, pressures 0.5,
zero random stream) the segment emits 67 stamps, not the asserted 100,
and the stamp radius is 15, not the asserted 10. -/
theorem endToEndScenarioNot100 :
    (drawStroke (c2Settings 0) (c2P0 0.5) (c2P1 0.5) (fun _ => 0) defaultCtx []).2.1.length
      ≠ 100 := by
  have h := (c2_stamps 0 0.5 0.5 (fun _ => 0) defaultCtx [] (fun _ => le_refl 0)).1
  rw [h]
  norm_num

/-- C2 witness: the amended scenario at angle 0, pressures 0.5 and the
zero random stream. -/
theorem endToEndScenario_witness :
    (∀ m : ℕ, 0 ≤ (fun _ : ℕ => (0 : ℝ)) m) ∧
    ((drawStroke (c2Settings 0) (c2P0 0.5) (c2P1 0.5) (fun _ => 0) defaultCtx []).2.1.length
        = 67 ∧
     ∀ st ∈ (drawStroke (c2Settings 0) (c2P0 0.5) (c2P1 0.5) (fun _ => 0) defaultCtx []).2.1,
       st.y = 0 ∧ st.rx = 15 ∧ st.ry = 15 ∧ st.rotation = 0 * (Real.pi / 180) ∧
       st.op = CompositeOp.sourceOver) :=
  ⟨fun _ => le_refl 0,
   endToEndScenario 0 0.5 0.5 (fun _ => 0) defaultCtx [] (fun _ => le_refl 0)⟩

/-- C8 witness: an eraser segment over the fixture points with the zero
random stream. -/
theorem eraserExcludedFromVectorLog_witness :
    (eraserSettings.isEraser = true) ∧
    ((drawStroke eraserSettings pLate pSame (fun _ => 0) defaultCtx []).2.2 = [] ∧
     ∀ st ∈ (drawStroke eraserSettings pLate pSame (fun _ => 0) defaultCtx []).2.1,
       st.op = CompositeOp.destinationOut) :=
  ⟨rfl, eraserExcludedFromVectorLog eraserSettings pLate pSame (fun _ => 0) defaultCtx [] rfl⟩

/-! ## Text-particle dropping (claim C4) -/

theorem stampParticle_raster_length (settings : BrushSettings)
    (particleSize roughness roundness : ℝ) (ctx : CtxState) (rand : ℕ → ℝ)
    (p : Particle) (k : ℕ) :
    (stampParticle settings particleSize roughness roundness ctx rand p k).1.length = 1 := rfl

/-- C4 (amended): during text-particle animation a dequeued particle is
randomly dropped (when its random draw is below 0.1) exactly when the
mode is GENERATE and the font style is BRUSH — independently of the
weight option; for every non-BRUSH style (or non-GENERATE mode) every
dequeued particle is stamped. -/
theorem textParticleDropRule (mode : AppMode) (settings : BrushSettings)
    (particleSize roughness roundness : ℝ) (ctx : CtxState) (rand : ℕ → ℝ) :
    (∀ (ps : List Particle) (k : ℕ),
      ¬ (mode = AppMode.GENERATE ∧ settings.fontStyle = FontStyle.BRUSH) →
      (animateParticles mode settings particleSize roughness roundness ctx rand ps k).1.length
        = ps.length) ∧
    (∀ (p : Particle) (k : ℕ),
      mode = AppMode.GENERATE → settings.fontStyle = FontStyle.BRUSH →
      (animateParticles mode settings particleSize roughness roundness ctx rand [p] k).1.length
        = if rand k < 0.1 then 0 else 1) ∧
    (∀ (w : WeightOption) (ps : List Particle) (k : ℕ),
      (animateParticles mode { settings with weightOption := w } particleSize roughness
          roundness ctx rand ps k).1.length
        = (animateParticles mode settings particleSize roughness roundness ctx rand
            ps k).1.length) := by
  refine ⟨?_, ?_, ?_⟩
  · intro ps
    induction ps with
    | nil => intro k _; rfl
    | cons p ps ih =>
      intro k hno
      unfold animateParticles
      rw [if_neg hno]
      simp only [List.length_append, List.length_cons,
        stampParticle_raster_length, ih (k + 4) hno]
      omega
  · intro p k hm hf
    unfold animateParticles
    rw [if_pos ⟨hm, hf⟩]
    split_ifs with hr
    · rfl
    · simp only [List.length_append, List.length_cons,
        stampParticle_raster_length]
      rfl
  · intro w ps
    induction ps with
    | nil => intro k; rfl
    | cons p ps ih =>
      intro k
      by_cases h : mode = AppMode.GENERATE ∧ settings.fontStyle = FontStyle.BRUSH
      · have h' : mode = AppMode.GENERATE ∧
            ({ settings with weightOption := w } : BrushSettings).fontStyle
              = FontStyle.BRUSH := h
        unfold animateParticles
        rw [if_pos h', if_pos h]
        split_ifs with hr
        · exact ih (k + 1)
        · simp only [List.length_append, stampParticle_raster_length, ih (k + 5)]
      · have h' : ¬ (mode = AppMode.GENERATE ∧
            ({ settings with weightOption := w } : BrushSettings).fontStyle
              = FontStyle.BRUSH) := h
        unfold animateParticles
        rw [if_neg h', if_neg h]
        simp only [List.length_append, stampParticle_raster_length, ih (k + 4)]

/-- C4 counterexample: with fontStyle BRUSH and weightOption THIN in
GENERATE mode, the first particle is dropped when its random draw is 0
(0 < 0.1), contradicting the claim that the THIN weight is never
dropped. -/
theorem brushThinParticleDropped :
    brushThinSettings.weightOption = WeightOption.THIN ∧
    (animateParticles AppMode.GENERATE brushThinSettings
        (particleSizeOf WeightOption.THIN)
        (textRoughness AppMode.GENERATE brushThinSettings)
        (textRoundness AppMode.GENERATE brushThinSettings)
        defaultCtx (fun _ => 0) [{ x := 0, y := 0 }] 0).1.length = 0 := by
  refine ⟨rfl, ?_⟩
  unfold animateParticles
  rw [if_pos ⟨rfl, rfl⟩]
  rw [if_pos (by norm_num : ((fun _ : ℕ => (0 : ℝ)) 0) < 0.1)]
  rfl

/-- C4 witness: in GENERATE mode with the HAND style every dequeued
particle is stamped. -/
theorem textParticleDropRule_witness :
    (¬ (AppMode.GENERATE = AppMode.GENERATE ∧
        handSettings.fontStyle = FontStyle.BRUSH)) ∧
    (animateParticles AppMode.GENERATE handSettings
        (particleSizeOf WeightOption.NORMAL)
        (textRoughness AppMode.GENERATE handSettings)
        (textRoundness AppMode.GENERATE handSettings)
        defaultCtx (fun _ => 0) [{ x := 0, y := 0 }] 0).1.length
      = [({ x := 0, y := 0 } : Particle)].length :=
  ⟨by simp [handSettings],
   (textParticleDropRule AppMode.GENERATE handSettings
      (particleSizeOf WeightOption.NORMAL)
      (textRoughness AppMode.GENERATE handSettings)
      (textRoundness AppMode.GENERATE handSettings)
      defaultCtx (fun _ => 0)).1 [{ x := 0, y := 0 }] 0 (by simp [handSettings])⟩

end Seoye

